import Mathlib

/-!
Verification of the MTT-assay IC50 numeric pipeline from `ic50_tsv_app.py`.

The pipeline in the source is:
  * `background_corrected = absorbance_data - np.mean(absorbance_data[:, neg_control_col])`
  * `no_drug_with_mtt_mean = np.mean(background_corrected[:, no_drug_with_mtt_col])`
  * `viability = np.mean(background_corrected[:, treatment_cols], axis=0) / no_drug_with_mtt_mean * 100`
  * `viability_std = np.std(background_corrected[:, treatment_cols], axis=0) / no_drug_with_mtt_mean * 100`
  * `ic50_concentration = np.interp(50, viability[::-1], concentrations[::-1])`
preceded by the shape validation
  `if len(concentrations) != len(treatment_cols): st.error(...); st.stop()`.

We embed the float arithmetic as exact rational arithmetic (`ℚ`); the one
claim that is genuinely about IEEE special values is settled against an
extended value type `IEEEVal` that models division by zero the way float64
does (`0/0 = NaN`, `x/0 = ±inf`).  A grid is a list of rows, each row a list
of rationals; `np` column extraction, mean, population standard deviation
(`np.std`, `ddof = 0`) and `np.interp` (on an ascending abscissa, with its
documented clamping outside the domain) are translated below.
-/

set_option autoImplicit false

namespace IC50App

/-- A 2-D absorbance grid: rows of rational cells (rows = replicates). -/
abbrev Grid := List (List ℚ)

/-- Number of columns of a (rectangular) grid, read off the first row,
as `df.to_numpy().shape[1]` would give. -/
def ncols (g : Grid) : ℕ := (g.headD []).length

/-- Cell access `g[r, c]` with a default of `0` outside the grid. -/
def cell (g : Grid) (r c : ℕ) : ℚ := (g.getD r []).getD c 0

/-- Column extraction `g[:, c]`: the `c`-th entry of every row. -/
def column (g : Grid) (c : ℕ) : List ℚ := g.map (fun row => row.getD c 0)

/-- `np.mean` of a 1-D vector: sum divided by length. -/
def mean (l : List ℚ) : ℚ := l.sum / l.length

/-- Population variance, the square of `np.std` with its default
`ddof = 0`: mean squared deviation, divided by the count `N` (not `N - 1`). -/
def popVariance (l : List ℚ) : ℚ := (l.map (fun x => (x - mean l) ^ 2)).sum / l.length

/-- `np.std` with its default `ddof = 0` (population standard deviation). -/
noncomputable def popStdDev (l : List ℚ) : ℝ := Real.sqrt ((popVariance l : ℚ) : ℝ)

/-- Line 79 of the source: `absorbance_data - np.mean(absorbance_data[:, neg_control_col])`.
The scalar mean of the negative-control column is subtracted from every cell
of the grid; numpy broadcasting makes this a uniform shift of the whole grid. -/
def background_corrected (g : Grid) (neg_control_col : ℕ) : Grid :=
  let m := mean (column g neg_control_col)
  g.map (fun row => row.map (fun x => x - m))

/-- Line 84 of the source:
`np.mean(background_corrected[:, treatment_cols], axis=0) / no_drug_with_mtt_mean * 100`,
applied to an already background-corrected grid `bc`.  One viability
percentage per treatment column, in the supplied column order. -/
def viability (bc : Grid) (no_drug_with_mtt_col : ℕ) (treatment_cols : List ℕ) : List ℚ :=
  treatment_cols.map (fun t =>
    mean (column bc t) / mean (column bc no_drug_with_mtt_col) * 100)

/-- Line 85 of the source:
`np.std(background_corrected[:, treatment_cols], axis=0) / no_drug_with_mtt_mean * 100`. -/
noncomputable def viability_std (bc : Grid) (no_drug_with_mtt_col : ℕ)
    (treatment_cols : List ℕ) : List ℝ :=
  treatment_cols.map (fun t =>
    popStdDev (column bc t) / ((mean (column bc no_drug_with_mtt_col) : ℚ) : ℝ) * 100)

/-- One-dimensional linear interpolation over knot/value pairs, translating
`np.interp` for a non-decreasing abscissa: values at or below the first knot
clamp to the first ordinate, values above the last knot clamp to the last
ordinate, and in between the bracketing segment is evaluated linearly. -/
def interpPts (x : ℚ) : List (ℚ × ℚ) → ℚ
  | [] => 0
  | [p] => p.2
  | p :: q :: rest =>
    if x ≤ p.1 then p.2
    else if x ≤ q.1 then p.2 + (x - p.1) * (q.2 - p.2) / (q.1 - p.1)
    else interpPts x (q :: rest)

/-- `np.interp(x, xp, fp)` with `xp` the independent and `fp` the dependent axis. -/
def interp (x : ℚ) (xp fp : List ℚ) : ℚ := interpPts x (xp.zip fp)

/-- Line 89 of the source: `np.interp(50, viability[::-1], concentrations[::-1])`.
Both sequences are reversed (the same permutation applied to both), viability
serves as the independent axis, concentration as the dependent axis, and the
piecewise-linear function is evaluated at viability 50. -/
def ic50_concentration (concentrations viability : List ℚ) : ℚ :=
  interp 50 viability.reverse concentrations.reverse

/-- Errors the script surfaces.  `shapeMismatch` is the `st.error`/`st.stop`
branch of line 70, which interpolates both counts into its message; an
out-of-range column subscript raises the underlying library's index error
uncaught (there is no validation of the treatment column indices anywhere). -/
inductive PipeError where
  | shapeMismatch (nConc nTreat : ℕ)
  | indexError
deriving DecidableEq

/-- The numeric stages of the pipeline, used to record which stages have
executed by the time a run ends. -/
inductive Step where
  | backgroundCorrection
  | normalization
  | interpolation
deriving DecidableEq

/-- The computation triggered by the script, lines 70-92, in source order:
the shape validation of line 70 (`st.stop` on mismatch), then line 79's
background correction (which subscripts the negative-control column before
producing the corrected grid), then lines 82-85's normalization (which
subscripts the reference column and the treatment columns of the corrected
grid — an out-of-range subscript raises there, after the corrected grid has
already been built), then line 89's interpolation.  The returned list records
the numeric steps that executed; the standard-deviation vector of line 85 is
real-valued and therefore not part of this computable outcome, but its column
subscripts are the same ones checked here. -/
def pipeline (df : Grid) (neg_control_col no_drug_with_mtt_col : ℕ)
    (treatment_cols : List ℕ) (concentrations : List ℚ) :
    Except PipeError (List ℚ × ℚ) × List Step :=
  if concentrations.length ≠ treatment_cols.length then
    (Except.error (PipeError.shapeMismatch concentrations.length treatment_cols.length), [])
  else if ¬ neg_control_col < ncols df then
    (Except.error PipeError.indexError, [])
  else if ¬ no_drug_with_mtt_col < ncols df then
    (Except.error PipeError.indexError, [Step.backgroundCorrection])
  else if ¬ ∀ t ∈ treatment_cols, t < ncols df then
    (Except.error PipeError.indexError, [Step.backgroundCorrection])
  else
    (Except.ok
      (viability (background_corrected df neg_control_col) no_drug_with_mtt_col treatment_cols,
        ic50_concentration concentrations
          (viability (background_corrected df neg_control_col) no_drug_with_mtt_col treatment_cols)),
      [Step.backgroundCorrection, Step.normalization, Step.interpolation])

/-- Value of a float64 computation: either an exact (rational) finite value
or one of the IEEE special values that float division by zero produces. -/
inductive IEEEVal where
  | fin (q : ℚ)
  | posInf
  | negInf
  | nan
deriving DecidableEq

/-- IEEE float division of finite values: finite quotient when the divisor is
nonzero, `±inf` for a nonzero numerator over zero, `NaN` for `0 / 0`. -/
def divIEEE (a b : ℚ) : IEEEVal :=
  if b ≠ 0 then IEEEVal.fin (a / b)
  else if 0 < a then IEEEVal.posInf
  else if a < 0 then IEEEVal.negInf
  else IEEEVal.nan

/-- IEEE multiplication by the positive finite constant 100, which maps each
special value to itself. -/
def mulHundred : IEEEVal → IEEEVal
  | IEEEVal.fin q => IEEEVal.fin (q * 100)
  | IEEEVal.posInf => IEEEVal.posInf
  | IEEEVal.negInf => IEEEVal.negInf
  | IEEEVal.nan => IEEEVal.nan

/-- Line 84 of the source evaluated with IEEE float semantics for the
division: `np.mean(bc[:, treatment_cols], axis=0) / no_drug_with_mtt_mean * 100`,
keeping the special values that arise when the reference mean is zero. -/
def viabilityIEEE (bc : Grid) (no_drug_with_mtt_col : ℕ)
    (treatment_cols : List ℕ) : List IEEEVal :=
  treatment_cols.map (fun t =>
    mulHundred (divIEEE (mean (column bc t)) (mean (column bc no_drug_with_mtt_col))))

/-- A float value that is not an ordinary finite number. -/
def nonFinite : IEEEVal → Prop
  | IEEEVal.fin _ => False
  | _ => True

end IC50App

namespace IC50App

/-! Helper lemmas about `zip` and `interpPts`. -/

lemma getElem_idx_congr {α : Type*} {l : List α} {i j : ℕ} (h : i = j)
    (hi : i < l.length) (hj : j < l.length) : l[i] = l[j] := by
  subst h
  rfl

lemma zip_ne_nil {l₁ l₂ : List ℚ} (h₁ : l₁ ≠ []) (h₂ : l₂ ≠ []) :
    l₁.zip l₂ ≠ [] := by
  cases l₁ with
  | nil => exact absurd rfl h₁
  | cons a t =>
    cases l₂ with
    | nil => exact absurd rfl h₂
    | cons b s => simp [List.zip_cons_cons]

lemma zip_head {l₁ l₂ : List ℚ} (h₁ : l₁ ≠ []) (h₂ : l₂ ≠ []) :
    (l₁.zip l₂).head (zip_ne_nil h₁ h₂) = (l₁.head h₁, l₂.head h₂) := by
  cases l₁ with
  | nil => exact absurd rfl h₁
  | cons a t =>
    cases l₂ with
    | nil => exact absurd rfl h₂
    | cons b s => rfl

lemma zip_getLast {l₁ l₂ : List ℚ} (h : l₁.length = l₂.length)
    (h₁ : l₁ ≠ []) (h₂ : l₂ ≠ []) (hz : l₁.zip l₂ ≠ []) :
    (l₁.zip l₂).getLast hz = (l₁.getLast h₁, l₂.getLast h₂) := by
  have hp₁ : 0 < l₁.length := List.length_pos.mpr h₁
  have hlen : (l₁.zip l₂).length = l₁.length := by
    rw [List.length_zip, h, Nat.min_self]
  rw [List.getLast_eq_getElem (l₁.zip l₂) hz, List.getLast_eq_getElem l₁ h₁,
    List.getLast_eq_getElem l₂ h₂]
  have hi : (l₁.zip l₂).length - 1 < (l₁.zip l₂).length := by omega
  rw [List.getElem_zip]
  have e₁ : (l₁.zip l₂).length - 1 = l₁.length - 1 := by omega
  have e₂ : (l₁.zip l₂).length - 1 = l₂.length - 1 := by omega
  have b₁ : (l₁.zip l₂).length - 1 < l₁.length := by omega
  have b₂ : (l₁.zip l₂).length - 1 < l₂.length := by omega
  have b₁' : l₁.length - 1 < l₁.length := by omega
  have b₂' : l₂.length - 1 < l₂.length := by omega
  rw [Prod.mk.injEq]
  exact ⟨getElem_idx_congr e₁ b₁ b₁', getElem_idx_congr e₂ b₂ b₂'⟩

lemma interpPts_head (x : ℚ) (pts : List (ℚ × ℚ)) (h : pts ≠ [])
    (hx : x ≤ (pts.head h).1) : interpPts x pts = (pts.head h).2 := by
  match pts with
  | [p] => rfl
  | p :: q :: rest =>
    simp only [List.head_cons] at hx
    simp only [interpPts, if_pos hx, List.head_cons]

lemma interpPts_last (x : ℚ) :
    ∀ (pts : List (ℚ × ℚ)) (h : pts ≠ []), (∀ p ∈ pts, p.1 < x) →
      interpPts x pts = (pts.getLast h).2
  | [p], _, _ => rfl
  | p :: q :: rest, _, hall => by
    have hp : ¬ x ≤ p.1 := not_le.mpr (hall p (by simp))
    have hq : ¬ x ≤ q.1 := not_le.mpr (hall q (by simp))
    have ih := interpPts_last x (q :: rest) (by simp)
      (fun r hr => hall r (List.mem_cons_of_mem p hr))
    simp only [interpPts, if_neg hp, if_neg hq]
    rw [ih]
    exact congrArg Prod.snd (List.getLast_cons (a := p) (l := q :: rest) (by simp)).symm

lemma getD_map_of_lt {α β : Type*} (l : List α) (f : α → β) (d : β) (e : α)
    (i : ℕ) (hi : i < l.length) : (l.map f).getD i d = f (l.getD i e) := by
  rw [List.getD_eq_getElem _ _ (by simpa using hi), List.getD_eq_getElem l e hi]
  simp

lemma sum_map_sub_const (l : List ℚ) (m : ℚ) :
    (l.map (fun x => x - m)).sum = l.sum - l.length * m := by
  induction l with
  | nil => simp
  | cons a t ih =>
    simp only [List.map_cons, List.sum_cons, ih, List.length_cons]
    push_cast
    ring

/-- Claim C1: the IC50 estimator reverses both the concentration and the
viability sequence and evaluates the piecewise-linear function with viability
as independent axis at 50; for concentrations `[1,2,4,8,16]` and mean
viabilities `[100,90,70,40,10]` the estimate is `4 + (70-50)/(70-40)*(8-4)`,
i.e. `20/3`, strictly between 4 and 8. -/
theorem C1_ic50_interpolation :
    (∀ cs vs : List ℚ, ic50_concentration cs vs = interp 50 vs.reverse cs.reverse) ∧
    ic50_concentration [1, 2, 4, 8, 16] [100, 90, 70, 40, 10]
      = 4 + (70 - 50) / (70 - 40) * (8 - 4) ∧
    ic50_concentration [1, 2, 4, 8, 16] [100, 90, 70, 40, 10] = 20 / 3 ∧
    4 < ic50_concentration [1, 2, 4, 8, 16] [100, 90, 70, 40, 10] ∧
    ic50_concentration [1, 2, 4, 8, 16] [100, 90, 70, 40, 10] < 8 := by
  have h : ic50_concentration [1, 2, 4, 8, 16] [100, 90, 70, 40, 10] = 20 / 3 := by
    norm_num [ic50_concentration, interp, interpPts]
  exact ⟨fun cs vs => rfl, by rw [h]; norm_num, h, by rw [h]; norm_num, by rw [h]; norm_num⟩

/-- Claim C4: if 50 lies outside the range of the (reversed) viability
sequence, the IC50 estimate clamps to the concentration at the nearest end of
the supplied curve rather than extrapolating: when every viability exceeds 50
the estimate is the last concentration (the lowest-viability end), and when
every viability is below 50 it is the first concentration. -/
theorem C4_clamp_outside_range (cs vs : List ℚ) (hcs : cs ≠ []) (hvs : vs ≠ [])
    (hlen : cs.length = vs.length) :
    ((∀ v ∈ vs, 50 < v) → ic50_concentration cs vs = cs.getLast hcs) ∧
    ((∀ v ∈ vs, v < 50) → ic50_concentration cs vs = cs.head hcs) := by
  have hvr : vs.reverse ≠ [] := by simpa using hvs
  have hcr : cs.reverse ≠ [] := by simpa using hcs
  have hzne : vs.reverse.zip cs.reverse ≠ [] := zip_ne_nil hvr hcr
  constructor
  · intro hall
    have hx : (50 : ℚ) ≤ ((vs.reverse.zip cs.reverse).head hzne).1 := by
      rw [zip_head hvr hcr]
      have hmem : vs.reverse.head hvr ∈ vs := by
        have hm := List.head_mem hvr
        rwa [List.mem_reverse] at hm
      exact le_of_lt (hall _ hmem)
    show interpPts 50 (vs.reverse.zip cs.reverse) = cs.getLast hcs
    rw [interpPts_head 50 _ hzne hx, zip_head hvr hcr]
    exact List.head_reverse _
  · intro hall
    have hallz : ∀ p ∈ vs.reverse.zip cs.reverse, p.1 < 50 := by
      intro p hp
      have hm := (List.of_mem_zip hp).1
      rw [List.mem_reverse] at hm
      exact hall _ hm
    have hlen' : vs.reverse.length = cs.reverse.length := by
      simp [hlen]
    show interpPts 50 (vs.reverse.zip cs.reverse) = cs.head hcs
    rw [interpPts_last 50 _ hzne hallz, zip_getLast hlen' hvr hcr hzne]
    exact List.getLast_reverse _

/-- Witness for C4: at concentrations `[1,2,4,8,16]` with viabilities
`[100,95,90,85,80]` (all above 50) the estimate clamps to 16. -/
theorem C4_clamp_outside_range_witness :
    ic50_concentration [1, 2, 4, 8, 16] [100, 95, 90, 85, 80] = 16 := by
  have h := (C4_clamp_outside_range [1, 2, 4, 8, 16] [100, 95, 90, 85, 80]
    (by simp) (by simp) (by simp)).1 (by norm_num)
  simpa using h

/-- Claim C2: for a grid with at least one row and a valid negative-control
column, background correction returns a grid of identical shape in which
every cell equals the original cell minus the mean of the negative-control
column — a single scalar shift applied uniformly, not per-column. -/
theorem C2_background_correction_cells (g : Grid) (n r c : ℕ)
    (hrow : 1 ≤ g.length) (hn : n < ncols g)
    (hr : r < g.length) (hc : c < (g.getD r []).length) :
    (background_corrected g n).length = g.length ∧
    ((background_corrected g n).getD r []).length = (g.getD r []).length ∧
    cell (background_corrected g n) r c = cell g r c - mean (column g n) := by
  have hmap : background_corrected g n
      = g.map (fun row => row.map (fun x => x - mean (column g n))) := rfl
  have hrowD : (background_corrected g n).getD r []
      = (g.getD r []).map (fun x => x - mean (column g n)) := by
    rw [hmap, List.getD_eq_getElem _ _ (by simpa using hr), List.getD_eq_getElem g [] hr]
    simp
  refine ⟨by simp [hmap], by rw [hrowD]; simp, ?_⟩
  unfold cell
  rw [hrowD, List.getD_eq_getElem _ _ (by simpa using hc), List.getD_eq_getElem _ _ hc]
  simp

/-- Witness for C2: the grid `[[1,2],[3,4]]` with negative-control column 0,
checked at row 1, column 1. -/
theorem C2_background_correction_cells_witness :
    (background_corrected [[1, 2], [3, 4]] 0).length = ([[1, 2], [3, 4]] : Grid).length ∧
    ((background_corrected [[1, 2], [3, 4]] 0).getD 1 []).length
      = (([[1, 2], [3, 4]] : Grid).getD 1 []).length ∧
    cell (background_corrected [[1, 2], [3, 4]] 0) 1 1
      = cell [[1, 2], [3, 4]] 1 1 - mean (column [[1, 2], [3, 4]] 0) :=
  C2_background_correction_cells [[1, 2], [3, 4]] 0 1 1 (by decide) (by decide)
    (by decide) (by decide)

/-- Claim C9: background correction is a pure, deterministic function of the
grid and the negative-control column: the same input yields the same output
(no hidden state), and the output is a fresh grid of identical shape.  The
input grid itself is a value in this embedding, so it cannot be mutated;
immutability is inherited from numpy's non-inplace broadcasting subtraction,
which allocates its result. -/
theorem C9_background_correction_pure (g : Grid) (n : ℕ) :
    background_corrected g n = background_corrected g n ∧
    (background_corrected g n).length = g.length ∧
    ∀ r : ℕ, ((background_corrected g n).getD r []).length = (g.getD r []).length := by
  refine ⟨rfl, by simp [background_corrected], ?_⟩
  intro r
  by_cases hr : r < g.length
  · rw [List.getD_eq_getElem _ _ (by simpa [background_corrected] using hr),
      List.getD_eq_getElem g [] hr]
    simp [background_corrected]
  · have h1 : g.length ≤ r := le_of_not_lt hr
    have h2 : (background_corrected g n).length ≤ r := by
      simpa [background_corrected] using h1
    rw [List.getD_eq_default _ _ h2, List.getD_eq_default _ _ h1]

/-- Claim C10: after background correction, the corrected negative-control
column has mean exactly zero, since the scalar subtracted from it is its own
mean. -/
theorem C10_corrected_negcontrol_zero_mean (g : Grid) (n : ℕ)
    (hrow : 1 ≤ g.length) (hn : ∀ row ∈ g, n < row.length) :
    mean (column (background_corrected g n) n) = 0 := by
  have hcol : column (background_corrected g n) n
      = (column g n).map (fun x => x - mean (column g n)) := by
    unfold background_corrected column
    rw [List.map_map, List.map_map]
    apply List.map_congr_left
    intro row hmem
    simp only [Function.comp_apply]
    rw [List.getD_eq_getElem _ _ (by simpa using hn row hmem),
      List.getD_eq_getElem row 0 (hn row hmem)]
    simp only [List.getElem_map]
  have hL0 : (column g n).length = g.length := by simp [column]
  have hLq : ((column g n).length : ℚ) ≠ 0 := by
    rw [hL0]
    exact Nat.cast_ne_zero.mpr (by omega)
  rw [hcol]
  unfold mean
  rw [sum_map_sub_const, List.length_map, ← mul_div_assoc,
    mul_div_cancel_left₀ _ hLq, sub_self, zero_div]

/-- Witness for C10: the grid `[[1,2],[3,4]]` with negative-control column 0;
the corrected column 0 has mean zero. -/
theorem C10_corrected_negcontrol_zero_mean_witness :
    mean (column (background_corrected [[1, 2], [3, 4]] 0) 0) = 0 :=
  C10_corrected_negcontrol_zero_mean [[1, 2], [3, 4]] 0 (by decide) (by decide)

/-- Claim C3: for each treatment column, in the supplied order, the
normalizer produces `mean(corrected[:, t_i]) / referenceMean * 100` as the
mean viability and `popStdDev(corrected[:, t_i]) / referenceMean * 100` as
the dispersion, where the standard deviation is the population convention:
the square root of the mean squared deviation, dividing by the row count `N`
(spelled out as `(column).length` below), not by `N - 1`. -/
theorem C3_viability_normalizer (bc : Grid) (ref : ℕ) (tcols : List ℕ) (i : ℕ)
    (hi : i < tcols.length) :
    (viability bc ref tcols).length = tcols.length ∧
    (viability_std bc ref tcols).length = tcols.length ∧
    (viability bc ref tcols).getD i 0
      = mean (column bc (tcols.getD i 0)) / mean (column bc ref) * 100 ∧
    (viability_std bc ref tcols).getD i 0
      = Real.sqrt (((((column bc (tcols.getD i 0)).map
          (fun x => (x - mean (column bc (tcols.getD i 0))) ^ 2)).sum
            / ((column bc (tcols.getD i 0)).length) : ℚ) : ℝ))
        / ((mean (column bc ref) : ℚ) : ℝ) * 100 := by
  refine ⟨by simp [viability], by simp [viability_std], ?_, ?_⟩
  · unfold viability
    exact getD_map_of_lt tcols _ 0 0 i hi
  · unfold viability_std
    rw [getD_map_of_lt tcols _ 0 0 i hi]
    unfold popStdDev popVariance
    rfl

/-- Witness for C3 at the corrected grid `[[1,1],[1,3]]`, reference column 0
and the single treatment column 1. -/
theorem C3_viability_normalizer_witness :
    (0 : ℕ) < ([1] : List ℕ).length ∧
    ((viability [[1, 1], [1, 3]] 0 [1]).length = ([1] : List ℕ).length ∧
    (viability_std [[1, 1], [1, 3]] 0 [1]).length = ([1] : List ℕ).length ∧
    (viability [[1, 1], [1, 3]] 0 [1]).getD 0 0
      = mean (column [[1, 1], [1, 3]] (([1] : List ℕ).getD 0 0))
          / mean (column [[1, 1], [1, 3]] 0) * 100 ∧
    (viability_std [[1, 1], [1, 3]] 0 [1]).getD 0 0
      = Real.sqrt (((((column [[1, 1], [1, 3]] (([1] : List ℕ).getD 0 0)).map
          (fun x => (x - mean (column [[1, 1], [1, 3]] (([1] : List ℕ).getD 0 0))) ^ 2)).sum
            / ((column [[1, 1], [1, 3]] (([1] : List ℕ).getD 0 0)).length) : ℚ) : ℝ))
        / ((mean (column [[1, 1], [1, 3]] 0) : ℚ) : ℝ) * 100) :=
  ⟨by decide, C3_viability_normalizer [[1, 1], [1, 3]] 0 [1] 0 (by decide)⟩

/-- Counterexample to claim C8 as stated: on the corrected grid
`[[1,1],[-1,-1]]` with reference column 0 and treatment column 1, both column
means are 0, so `mean(corrected[:, t_0]) = referenceMean` holds, yet the
computed viability percentage is not 100 (the division by the zero reference
mean does not produce 100), refuting the unconditional equivalence. -/
theorem C8_counterexample :
    ¬ (((viability [[1, 1], [-1, -1]] 0 [1]).getD 0 0 = 100) ↔
        mean (column [[1, 1], [-1, -1]] 1) = mean (column [[1, 1], [-1, -1]] 0)) := by
  have h1 : (viability [[1, 1], [-1, -1]] 0 [1]).getD 0 0 = 0 := by
    norm_num [viability, column, mean]
  have h2 : mean (column [[1, 1], [-1, -1]] 1) = 0 := by
    norm_num [column, mean]
  have h3 : mean (column [[1, 1], [-1, -1]] 0) = 0 := by
    norm_num [column, mean]
  intro hiff
  rw [h1, h2, h3] at hiff
  norm_num at hiff

/-- Claim C8 amended: provided the reference mean is nonzero, the viability
percentage equals 100 exactly when the treatment-column mean equals the
reference mean.  (When the reference mean is zero the equivalence fails, as
the counterexample shows.) -/
theorem C8_amended_viability_100_iff (bc : Grid) (ref : ℕ) (tcols : List ℕ)
    (i : ℕ) (hi : i < tcols.length) (h0 : mean (column bc ref) ≠ 0) :
    (viability bc ref tcols).getD i 0 = 100 ↔
      mean (column bc (tcols.getD i 0)) = mean (column bc ref) := by
  unfold viability
  rw [getD_map_of_lt tcols _ 0 0 i hi, div_mul_eq_mul_div, div_eq_iff h0]
  constructor
  · intro h
    linarith
  · intro h
    rw [h]
    ring

/-- Witness for the amended C8 on the corrected grid `[[2],[4]]` with
reference column 0 and treatment column 0: the reference mean is 3 ≠ 0 and
the equivalence holds with both sides true. -/
theorem C8_amended_viability_100_iff_witness :
    mean (column [[2], [4]] 0) ≠ 0 ∧
    ((viability [[2], [4]] 0 [0]).getD 0 0 = 100 ↔
      mean (column [[2], [4]] (([0] : List ℕ).getD 0 0)) = mean (column [[2], [4]] 0)) :=
  ⟨by norm_num [column, mean],
    C8_amended_viability_100_iff [[2], [4]] 0 [0] 0 (by decide)
      (by norm_num [column, mean])⟩

/-- Claim C6: whenever the concentration count differs from the
treatment-column count, the run stops with a shape-mismatch error carrying
both counts, and no numeric step of the pipeline executes (the recorded step
list is empty). -/
theorem C6_shape_mismatch_stops (df : Grid) (neg ref : ℕ) (tcols : List ℕ)
    (concs : List ℚ) (h : concs.length ≠ tcols.length) :
    pipeline df neg ref tcols concs
      = (Except.error (PipeError.shapeMismatch concs.length tcols.length), []) := by
  unfold pipeline
  rw [if_pos h]

/-- Witness for C6: 4 concentrations against 5 treatment columns stop with
`shapeMismatch 4 5` and an empty step list. -/
theorem C6_shape_mismatch_stops_witness :
    pipeline [[1]] 0 0 [3, 4, 5, 6, 7] [1, 2, 4, 8]
      = (Except.error (PipeError.shapeMismatch 4 5), []) :=
  C6_shape_mismatch_stops [[1]] 0 0 [3, 4, 5, 6, 7] [1, 2, 4, 8] (by decide)

/-- Counterexample to claim C5 as stated: with grid `[[1,2]]` (two columns),
in-range negative-control column 0 and reference column 1, but out-of-range
treatment column 5, the run does fail with an index error — yet background
correction, a numeric step, has already executed by then (it is in the
recorded step list), so the error is not surfaced before every numeric step. -/
theorem C5_counterexample :
    pipeline [[1, 2]] 0 1 [5] [7]
      = (Except.error PipeError.indexError, [Step.backgroundCorrection]) ∧
    Step.backgroundCorrection ∈ (pipeline [[1, 2]] 0 1 [5] [7]).2 := by
  have h : pipeline [[1, 2]] 0 1 [5] [7]
      = (Except.error PipeError.indexError, [Step.backgroundCorrection]) := by
    unfold pipeline ncols
    norm_num
  exact ⟨h, by rw [h]; simp⟩

/-- Claim C5 amended: an out-of-range untreated-reference or treatment column
index makes the run fail with the library's index error during normalization,
after background correction has already executed — not before every numeric
step.  (The negative-control index is range-limited by the input widget; were
it out of range, the failure would occur while indexing for the correction
itself.) -/
theorem C5_amended_index_error_after_correction (df : Grid) (neg ref : ℕ)
    (tcols : List ℕ) (concs : List ℚ)
    (hlen : concs.length = tcols.length) (hneg : neg < ncols df)
    (hbad : ¬ (ref < ncols df ∧ ∀ t ∈ tcols, t < ncols df)) :
    pipeline df neg ref tcols concs
      = (Except.error PipeError.indexError, [Step.backgroundCorrection]) := by
  unfold pipeline
  rw [if_neg (not_not_intro hlen), if_neg (not_not_intro hneg)]
  by_cases href : ref < ncols df
  · have htc : ¬ ∀ t ∈ tcols, t < ncols df := by tauto
    rw [if_neg (not_not_intro href), if_pos htc]
  · rw [if_pos href]

/-- Witness for the amended C5: grid `[[1,2,3]]`, matching counts, in-range
negative control, out-of-range reference column 5. -/
theorem C5_amended_index_error_after_correction_witness :
    pipeline [[1, 2, 3]] 0 5 [1] [2]
      = (Except.error PipeError.indexError, [Step.backgroundCorrection]) :=
  C5_amended_index_error_after_correction [[1, 2, 3]] 0 5 [1] [2]
    (by decide) (by decide) (by decide)

/-- Claim C7: when the corrected reference-column mean is zero the normalizer
does not special-case: the run still completes without raising (the pipeline
returns a result with all three numeric steps executed), and under IEEE float
semantics every viability value of line 84 is `±inf` or `NaN`. -/
theorem C7_zero_reference_mean_no_crash (df : Grid) (neg ref : ℕ)
    (tcols : List ℕ) (concs : List ℚ)
    (hlen : concs.length = tcols.length) (hneg : neg < ncols df)
    (href : ref < ncols df) (htc : ∀ t ∈ tcols, t < ncols df)
    (h0 : mean (column (background_corrected df neg) ref) = 0) :
    (∃ out, pipeline df neg ref tcols concs
        = (Except.ok out,
            [Step.backgroundCorrection, Step.normalization, Step.interpolation])) ∧
    ∀ v ∈ viabilityIEEE (background_corrected df neg) ref tcols, nonFinite v := by
  constructor
  · refine ⟨(viability (background_corrected df neg) ref tcols,
      ic50_concentration concs (viability (background_corrected df neg) ref tcols)), ?_⟩
    unfold pipeline
    rw [if_neg (not_not_intro hlen), if_neg (not_not_intro hneg),
      if_neg (not_not_intro href), if_neg (not_not_intro htc)]
  · intro v hv
    unfold viabilityIEEE at hv
    rw [List.mem_map] at hv
    obtain ⟨t, ht, rfl⟩ := hv
    rw [h0]
    unfold divIEEE
    rw [if_neg (by simp)]
    by_cases hpos : 0 < mean (column (background_corrected df neg) t)
    · rw [if_pos hpos]
      trivial
    · rw [if_neg hpos]
      by_cases hng : mean (column (background_corrected df neg) t) < 0
      · rw [if_pos hng]
        trivial
      · rw [if_neg hng]
        trivial

/-- Witness for C7: grid `[[0,1],[0,-1]]` with negative-control column 0 and
reference column 1, whose corrected mean is zero; the single treatment column
1 yields a non-finite IEEE viability while the pipeline still returns `ok`. -/
theorem C7_zero_reference_mean_no_crash_witness :
    mean (column (background_corrected [[0, 1], [0, -1]] 0) 1) = 0 ∧
    ((∃ out, pipeline [[0, 1], [0, -1]] 0 1 [1] [5]
        = (Except.ok out,
            [Step.backgroundCorrection, Step.normalization, Step.interpolation])) ∧
      ∀ v ∈ viabilityIEEE (background_corrected [[0, 1], [0, -1]] 0) 1 [1], nonFinite v) :=
  ⟨by norm_num [background_corrected, column, mean],
    C7_zero_reference_mean_no_crash [[0, 1], [0, -1]] 0 1 [1] [5]
      (by decide) (by decide) (by decide) (by decide)
      (by norm_num [background_corrected, column, mean])⟩

end IC50App
